import Mathlib

/-!
Shallow embedding of the character-sheet CRUD application (src/app.py).

The application stores one JSON document per character under a data
directory (the filename stem is the character id) and at most one portrait
image per character under an upload directory.  We model the filesystem
state as an association list of records keyed by id together with the list
of image filenames present in the upload directory.  Request handlers are
embedded as pure functions from the state and the submitted form to the
new state, a response, and the list of flashed messages.  The handler
create_character receives the freshly generated uuid hex as an explicit
argument.  An unhandled Python exception (the IndexError reachable in
handle_image_upload) is modelled as the .error case of Except.

String primitives used by the code (str.strip, str.lower, str.split,
"." in s, rsplit, werkzeug's secure_filename, pathlib's Path(...).name)
are embedded structurally on the character list of the string, so that the
kernel can evaluate them on concrete inputs; on the ASCII data this
application manipulates they agree with the Python primitives.
-/

namespace FichaRPG

/-- A flashed message: (text, category), as produced by flash(msg, cat). -/
abbrev Flash := String × String

/-- The ALLOWED_EXTENSIONS set from app.py. -/
def ALLOWED_EXTENSIONS : List String := ["png", "jpg", "jpeg", "gif", "webp"]

/-- The keys of ATTRIBUTE_FIELDS from app.py (labels dropped: they only feed templates). -/
def ATTRIBUTE_FIELDS : List String :=
  ["strength", "dexterity", "constitution", "intelligence", "wisdom", "charisma"]

/-- Drop leading and trailing characters satisfying p (the shape of both
Python str.strip() and str.strip("._")). -/
def dropEnds (p : Char → Bool) (l : List Char) : List Char :=
  ((l.dropWhile p).reverse.dropWhile p).reverse

/-- Python str.strip() with no argument, on ASCII text: remove surrounding
whitespace.  Implemented on the character list so the kernel can evaluate
it (Lean's String.trim recurses on byte positions and does not reduce). -/
def pyStrip (s : String) : String :=
  String.mk (dropEnds Char.isWhitespace s.toList)

/-- Python str.lower() on ASCII text (kernel-reducible String.toLower). -/
def lowerStr (s : String) : String :=
  String.mk (s.toList.map Char.toLower)

/-- Python "." in s. -/
def containsDot (s : String) : Bool :=
  s.toList.contains '.'

/-- The part of s after its last dot: s.rsplit(".", 1)[1] when "." is in s. -/
def lastDotSegment (s : String) : String :=
  String.mk ((s.toList.reverse.takeWhile (fun c => c ≠ '.')).reverse)

/-- filename.rsplit(".", 1)[1]: some part-after-last-dot, or none when the
filename has no dot, in which case the Python indexing raises IndexError. -/
def rsplitLast (filename : String) : Option String :=
  if containsDot filename then some (lastDotSegment filename) else none

/-- allowed_file(filename) from app.py. -/
def allowed_file (filename : String) : Bool :=
  containsDot filename && ALLOWED_EXTENSIONS.contains (lowerStr (lastDotSegment filename))

/-- Python str.split() with no argument, on the character list: the maximal
whitespace-free runs, in order, empty runs discarded; acc holds the
current run reversed. -/
def wordsGo : List Char → List Char → List (List Char)
  | acc, [] => if acc = [] then [] else [acc.reverse]
  | acc, c :: rest =>
    if c.isWhitespace then
      if acc = [] then wordsGo [] rest else acc.reverse :: wordsGo [] rest
    else wordsGo (c :: acc) rest

/-- A character kept by werkzeug's _filename_ascii_strip_re ([A-Za-z0-9_.-]). -/
def keepChar (c : Char) : Bool :=
  c.isAlphanum || c = '_' || c = '.' || c = '-'

/-- A character stripped from both ends by .strip("._"). -/
def stripChar (c : Char) : Bool :=
  c = '.' || c = '_'

/-- werkzeug.utils.secure_filename on a POSIX system: NFKD-normalize and
drop non-ASCII (for ASCII input the normalization is the identity, so we
model the ASCII filter), replace os.sep "/" by a space (altsep is None),
join the whitespace-split pieces with "_", drop characters outside
[A-Za-z0-9_.-], and strip leading/trailing "." and "_".  The Windows
device-file branch is dead on POSIX. -/
def secure_filename (filename : String) : String :=
  let ascii := filename.toList.filter (fun c => c.toNat < 128)
  let replaced := ascii.map (fun c => if c = '/' then ' ' else c)
  let joined := List.intercalate ['_'] (wordsGo [] replaced)
  String.mk (dropEnds stripChar (joined.filter keepChar))

/-- pathlib Path(p).name for the relative references this app stores:
the last "/"-separated component. -/
def pathName (p : String) : String :=
  String.mk ((p.toList.reverse.takeWhile (fun c => c ≠ '/')).reverse)

/-- Kernel-reducible lexicographic comparison of character lists; proved
below to agree with the order Python compares strings by (String's ≤). -/
def lexLe : List Char → List Char → Bool
  | [], _ => true
  | _ :: _, [] => false
  | a :: as, b :: bs => if a < b then true else if b < a then false else lexLe as bs

/-- lexLe is the complement of the swapped lexicographic order on
character lists. -/
theorem lexLe_iff_not_lt :
    ∀ (l₁ l₂ : List Char), lexLe l₁ l₂ = true ↔ ¬ List.Lex (· < ·) l₂ l₁
  | [], l₂ => by
    constructor
    · intro _ h
      nomatch h
    · intro _
      rfl
  | a :: as, [] => by
    constructor
    · intro h
      nomatch h
    · intro h
      exact absurd List.Lex.nil h
  | a :: as, b :: bs => by
    by_cases hab : a < b
    · simp only [lexLe, if_pos hab]
      constructor
      · intro _ h
        cases h with
        | cons h => exact lt_irrefl _ hab
        | rel h => exact absurd h (lt_asymm hab)
      · intro _
        trivial
    · by_cases hba : b < a
      · simp only [lexLe, if_neg hab, if_pos hba]
        constructor
        · intro h
          nomatch h
        · intro h
          exact absurd (List.Lex.rel hba) h
      · have heq : a = b := le_antisymm (not_lt.mp hba) (not_lt.mp hab)
        subst heq
        simp only [lexLe, if_neg hab, if_neg hba]
        rw [lexLe_iff_not_lt as bs]
        constructor
        · intro hn h
          cases h with
          | cons h => exact hn h
          | rel h => exact lt_irrefl _ h
        · intro hn h
          exact hn (List.Lex.cons h)

/-- lexLe on the character lists is exactly String's ≤. -/
theorem lexLe_iff_le (s t : String) : lexLe s.toList t.toList = true ↔ s ≤ t := by
  rw [lexLe_iff_not_lt]
  constructor
  · intro h
    by_contra hle
    rw [not_le] at hle
    exact h (String.lt_iff_toList_lt.mp hle)
  · intro h hlt
    exact absurd (String.lt_iff_toList_lt.mpr hlt) (not_lt.mpr h)

/-- A character record as stored in a JSON file: the dict built by
extract_character_form.  The id is not a field of the document; it is the
filename stem and is injected on load, so loads return it alongside.
attributes is kept as the association list the Python loop builds. -/
structure CharacterRec where
  name : String
  race : String
  character_class : String
  background : String
  level : String
  hit_points : String
  armor_class : String
  speed : String
  attributes : List (String × Int)
  proficiencies : String
  equipment : String
  spells : String
  notes : String
  image : Option String
deriving Repr, DecidableEq

/-- A submitted multipart form: the text fields (request.form) and the
optional uploaded file, represented by its client-supplied filename
(request.files.get("image"); some "" models a present part with an empty
filename, which the code treats like no file). -/
structure Form where
  fields : List (String × String)
  imageFile : Option String
deriving Repr

/-- request.form.get(key, dflt). -/
def Form.get (form : Form) (key dflt : String) : String :=
  match form.fields.lookup key with
  | some v => v
  | none => dflt

/-- The filesystem state: the data/characters directory as an association
list from filename stem (character id) to parsed JSON record, and the
static/uploads directory as the list of image filenames present. -/
structure FS where
  records : List (String × CharacterRec)
  images : List String
deriving Repr, DecidableEq

/-- Lookup of a record file by id: does <id>.json exist, and its contents. -/
def assocLookup : List (String × CharacterRec) → String → Option CharacterRec
  | [], _ => none
  | (k, v) :: rest, id => if k = id then some v else assocLookup rest id

/-- Existence and contents of the file <id>.json in the data directory. -/
def FS.lookupRecord (fs : FS) (id : String) : Option CharacterRec :=
  assocLookup fs.records id

/-- Writing <id>.json, fully overwriting any prior content for that id. -/
def FS.writeRecord (fs : FS) (id : String) (rec : CharacterRec) : FS :=
  { fs with records := (id, rec) :: fs.records.filter (fun e => e.1 ≠ id) }

/-- Unlinking <id>.json (no-op when absent). -/
def FS.removeRecord (fs : FS) (id : String) : FS :=
  { fs with records := fs.records.filter (fun e => e.1 ≠ id) }

/-- uploaded_file.save(destination): the file appears in the uploads
directory, overwriting any file of the same name. -/
def FS.writeImage (fs : FS) (nm : String) : FS :=
  { fs with images := nm :: fs.images.filter (fun m => m ≠ nm) }

/-- old_path.unlink() guarded by old_path.exists(): the name disappears. -/
def FS.removeImage (fs : FS) (nm : String) : FS :=
  { fs with images := fs.images.filter (fun m => m ≠ nm) }

/-- The responses the embedded handlers can produce.  Rendering is out of
scope; a successful view is represented by the record it would render. -/
inductive Resp where
  | redirectNew
  | redirectEdit (id : String)
  | redirectView (id : String)
  | redirectIndex
  | notFound
deriving Repr, DecidableEq

/-- load_character(character_id): abort(404) when <id>.json does not
exist, otherwise the parsed record; the injected data["id"] is the lookup
key itself, returned implicitly as the key used. -/
def load_character (fs : FS) (character_id : String) : Option CharacterRec :=
  fs.lookupRecord character_id

/-- view_character renders the loaded record; 404 when load aborts. -/
def view_character (fs : FS) (character_id : String) : Option CharacterRec :=
  load_character fs character_id

/-- The sort key of load_characters: item.get("name", "").lower() on the
(id, record) pair read from each file. -/
def nameKey (e : String × CharacterRec) : String :=
  lowerStr e.2.name

/-- The comparison load_characters sorts by: keys in ascending String
order. -/
def recLe (a b : String × CharacterRec) : Prop :=
  nameKey a ≤ nameKey b

instance decRecLe : DecidableRel recLe := fun a b =>
  decidable_of_iff (lexLe (nameKey a).toList (nameKey b).toList = true) (lexLe_iff_le _ _)

/-- load_characters(): every record in the directory paired with its
filename stem, sorted by sorted(characters, key=name.lower()).  Python's
sorted is a stable sort by this key; any stable sort computes the same
list, and we embed it as insertion sort, which is stable and
kernel-reducible. -/
def load_characters (fs : FS) : List (String × CharacterRec) :=
  List.insertionSort recLe fs.records

/-- Digit accumulator of the CPython int(str) grammar: after a first
digit, digits may follow, with single underscores only between digits. -/
def pyIntGo : Nat → List Char → Option Nat
  | acc, [] => some acc
  | acc, '_' :: c :: rest =>
    if c.isDigit then pyIntGo (acc * 10 + (c.toNat - 48)) rest else none
  | acc, c :: rest =>
    if c.isDigit then pyIntGo (acc * 10 + (c.toNat - 48)) rest else none

/-- The digit part of int(str): nonempty, starts with a digit. -/
def pyIntDigits : List Char → Option Nat
  | [] => none
  | c :: rest => if c.isDigit then pyIntGo (c.toNat - 48) rest else none

/-- CPython int(str) on ASCII input: surrounding whitespace stripped,
optional sign, then digits with optional single underscores between
digits; none models the ValueError. -/
def pyInt (s : String) : Option Int :=
  match dropEnds Char.isWhitespace s.toList with
  | '+' :: rest => (pyIntDigits rest).map (fun n => (n : Int))
  | '-' :: rest => (pyIntDigits rest).map (fun n => -(n : Int))
  | rest => (pyIntDigits rest).map (fun n => (n : Int))

/-- One iteration of the attributes loop: int(request.form.get("attr_" + key, ""))
with 0 on ValueError. -/
def attrValue (form : Form) (key : String) : Int :=
  (pyInt (form.get ("attr_" ++ key) "")).getD 0

/-- Python "x or y" on strings: y when x is empty. -/
def strOr (a b : String) : String :=
  if a = "" then b else a

/-- extract_character_form(existing) from app.py, with request.form and
request.files passed explicitly. -/
def extract_character_form (form : Form) (existing : Option CharacterRec) : CharacterRec :=
  { name := pyStrip (form.get "name" "")
  , race := pyStrip (form.get "race" "")
  , character_class := pyStrip (form.get "character_class" "")
  , background := pyStrip (form.get "background" "")
  , level := strOr (pyStrip (form.get "level" "1")) "1"
  , hit_points := pyStrip (form.get "hit_points" "")
  , armor_class := pyStrip (form.get "armor_class" "")
  , speed := pyStrip (form.get "speed" "")
  , attributes := ATTRIBUTE_FIELDS.map (fun key => (key, attrValue form key))
  , proficiencies := form.get "proficiencies" ""
  , equipment := form.get "equipment" ""
  , spells := form.get "spells" ""
  , notes := form.get "notes" ""
  , image := match existing with | some e => e.image | none => none }

/-- The flash text of an invalid image format. -/
def invalidImageMsg : String :=
  "Formato de imagem inválido. Use png, jpg, jpeg, gif ou webp."

/-- handle_image_upload(character_id, previous_image) from app.py.  Returns
the image reference for the record, the new filesystem state, and the
flashes; .error models the IndexError raised by rsplit(".", 1)[1] when the
sanitized filename has no dot. -/
def handle_image_upload (fs : FS) (character_id : String) (imageFile : Option String)
    (previous_image : Option String) : Except Unit (Option String × FS × List Flash) :=
  match imageFile with
  | none => .ok (previous_image, fs, [])
  | some fn =>
    if fn = "" then .ok (previous_image, fs, [])
    else if allowed_file fn = false then
      .ok (previous_image, fs, [(invalidImageMsg, "error")])
    else
      let filename := secure_filename fn
      match rsplitLast filename with
      | none => .error ()
      | some rawExt =>
        let extension := lowerStr rawExt
        let final_name := character_id ++ "." ++ extension
        let fs1 := fs.writeImage final_name
        let fs2 :=
          match previous_image with
          | some prev =>
            if prev ≠ "" ∧ prev ≠ "uploads/" ++ final_name then
              fs1.removeImage (pathName prev)
            else fs1
          | none => fs1
        .ok (some ("uploads/" ++ final_name), fs2, [])

/-- create_character() from app.py, with the uuid4().hex passed in. -/
def create_character (fs : FS) (form : Form) (character_id : String) :
    Except Unit (FS × Resp × List Flash) :=
  let character := extract_character_form form none
  if character.name = "" then
    .ok (fs, Resp.redirectNew, [("O nome do personagem é obrigatório.", "error")])
  else
    match handle_image_upload fs character_id form.imageFile none with
    | .error e => .error e
    | .ok (img, fs1, fl) =>
      let fs2 := fs1.writeRecord character_id { character with image := img }
      .ok (fs2, Resp.redirectView character_id,
           fl ++ [("Personagem criado com sucesso!", "success")])

/-- update_character(character_id) from app.py; notFound models the
abort(404) raised by load_character. -/
def update_character (fs : FS) (form : Form) (character_id : String) :
    Except Unit (FS × Resp × List Flash) :=
  match fs.lookupRecord character_id with
  | none => .ok (fs, Resp.notFound, [])
  | some existing =>
    let character := extract_character_form form (some existing)
    if character.name = "" then
      .ok (fs, Resp.redirectEdit character_id,
           [("O nome do personagem é obrigatório.", "error")])
    else
      match handle_image_upload fs character_id form.imageFile existing.image with
      | .error e => .error e
      | .ok (img, fs1, fl) =>
        let fs2 := fs1.writeRecord character_id { character with image := img }
        .ok (fs2, Resp.redirectView character_id,
             fl ++ [("Personagem atualizado!", "success")])

/-- delete_character(character_id) from app.py: 404 when the id has no
file; otherwise unlink the record file and, when the record references a
truthy image, unlink the file named by its last path component. -/
def delete_character (fs : FS) (character_id : String) : FS × Resp × List Flash :=
  match fs.lookupRecord character_id with
  | none => (fs, Resp.notFound, [])
  | some character =>
    let fs1 := fs.removeRecord character_id
    let fs2 :=
      match character.image with
      | some img => if img ≠ "" then fs1.removeImage (pathName img) else fs1
      | none => fs1
    (fs2, Resp.redirectIndex, [("Personagem removido.", "info")])

/-- Equality of records on every stored field except image (the claim
"equals the record modulo the server-assigned id and image fields"; the id
is not a record field here, it is the store key). -/
def eqModImage (a b : CharacterRec) : Prop :=
  a.name = b.name ∧ a.race = b.race ∧ a.character_class = b.character_class ∧
  a.background = b.background ∧ a.level = b.level ∧ a.hit_points = b.hit_points ∧
  a.armor_class = b.armor_class ∧ a.speed = b.speed ∧ a.attributes = b.attributes ∧
  a.proficiencies = b.proficiencies ∧ a.equipment = b.equipment ∧
  a.spells = b.spells ∧ a.notes = b.notes

/-- m is an image file stored for this id: its name starts with "<id>.". -/
def hasStem (character_id m : String) : Bool :=
  (character_id ++ ".").toList.isPrefixOf m.toList

/-- The empty store: fresh data and uploads directories. -/
def fs0 : FS := { records := [], images := [] }

/-- A record with the given name and every other field blank. -/
def mkChar (nm : String) : CharacterRec :=
  { name := nm, race := "", character_class := "", background := "", level := "1"
  , hit_points := "", armor_class := "", speed := "", attributes := []
  , proficiencies := "", equipment := "", spells := "", notes := "", image := none }

/-- Sample create form: a plain name, no upload. -/
def c1Form : Form := { fields := [("name", "Conan")], imageFile := none }

/-- The store after the sample create. -/
def c1FS : FS := fs0.writeRecord "abc" { extract_character_form c1Form none with image := none }

/-- A stored record referencing an image. -/
def c2Rec : CharacterRec := { mkChar "Hero" with image := some "uploads/id1.png" }

/-- A store holding one character with its image file. -/
def c2FS : FS := { records := [("id1", c2Rec)], images := ["id1.png"] }

/-- Three characters whose names test the case-insensitive sort. -/
def c3FS : FS :=
  { records := [("i1", mkChar "zara"), ("i2", mkChar "Anna"), ("i3", mkChar "bob")]
  , images := [] }

/-- A form whose attribute fields exercise both parse outcomes. -/
def c4Form : Form :=
  { fields := [("name", "Hero"), ("attr_strength", "abc"), ("attr_dexterity", "15")]
  , imageFile := none }

/-- A form whose name is whitespace only: empty after trimming. -/
def c5Form : Form := { fields := [("name", "   ")], imageFile := none }

/-- A form uploading a file with a disallowed extension. -/
def c6Form : Form := { fields := [("name", "Hero")], imageFile := some "portrait.exe" }

/-- An update form with no upload. -/
def c7Form : Form := { fields := [("name", "Hero")], imageFile := none }

/-- A form uploading a valid image whose name needs sanitizing. -/
def c8Form : Form := { fields := [("name", "Hero")], imageFile := some "new pic.PNG" }

/-- A form whose proficiencies field carries surrounding whitespace. -/
def c9Form : Form :=
  { fields := [("name", "Hero"), ("proficiencies", " stealth ")], imageFile := none }

/-- A form uploading a file named ".png". -/
def c10Form : Form := { fields := [("name", "Hero")], imageFile := some ".png" }

theorem lookupRecord_writeRecord_self (fs : FS) (id : String) (rec : CharacterRec) :
    (fs.writeRecord id rec).lookupRecord id = some rec := by
  simp [FS.writeRecord, FS.lookupRecord, assocLookup]

theorem assocLookup_filter_ne (l : List (String × CharacterRec)) (id : String) :
    assocLookup (l.filter (fun e => e.1 ≠ id)) id = none := by
  induction l with
  | nil => rfl
  | cons e rest ih =>
    rw [List.filter_cons]
    by_cases h : e.1 = id
    · rw [if_neg (by simp [h])]
      exact ih
    · rw [if_pos (by simp [h])]
      simp only [assocLookup]
      rw [if_neg h]
      exact ih

/-- C4: for every submitted form, the extracted attributes mapping has
exactly the six fixed keys, in order, each bound to the integer parse of
the corresponding attr_* field with 0 on parse failure; "abc" parses to
none (stored 0) and "15" to 15, and on the sample form strength is stored
as 0 and dexterity as 15. -/
theorem C4_attributes_exact_keys (form : Form) (existing : Option CharacterRec) :
    ((extract_character_form form existing).attributes.map Prod.fst = ATTRIBUTE_FIELDS) ∧
    (∀ key, key ∈ ATTRIBUTE_FIELDS →
      (extract_character_form form existing).attributes.lookup key =
        some ((pyInt (form.get ("attr_" ++ key) "")).getD 0)) ∧
    pyInt "abc" = none ∧ pyInt "15" = some 15 ∧
    (extract_character_form c4Form none).attributes.lookup "strength" = some 0 ∧
    (extract_character_form c4Form none).attributes.lookup "dexterity" = some 15 := by
  refine ⟨rfl, ?_, by decide, by decide, by decide, by decide⟩
  intro key hk
  simp only [ATTRIBUTE_FIELDS, List.mem_cons, List.not_mem_nil, or_false] at hk
  rcases hk with rfl | rfl | rfl | rfl | rfl | rfl <;> rfl

/-- C4 witness: the property evaluated on the sample form. -/
theorem C4_attributes_exact_keys_witness :
    ((extract_character_form c4Form none).attributes.map Prod.fst = ATTRIBUTE_FIELDS) ∧
    (∀ key, key ∈ ATTRIBUTE_FIELDS →
      (extract_character_form c4Form none).attributes.lookup key =
        some ((pyInt (c4Form.get ("attr_" ++ key) "")).getD 0)) ∧
    pyInt "abc" = none ∧ pyInt "15" = some 15 ∧
    (extract_character_form c4Form none).attributes.lookup "strength" = some 0 ∧
    (extract_character_form c4Form none).attributes.lookup "dexterity" = some 15 :=
  C4_attributes_exact_keys c4Form none

/-- C5: a create whose extracted name is empty leaves the store untouched
(records and images alike), redirects to the creation form, and flashes
the error message. -/
theorem C5_create_empty_name (fs : FS) (form : Form) (character_id : String)
    (hname : (extract_character_form form none).name = "") :
    create_character fs form character_id =
      .ok (fs, Resp.redirectNew, [("O nome do personagem é obrigatório.", "error")]) := by
  simp only [create_character]
  rw [if_pos hname]

/-- C5 witness: a whitespace-only name on the empty store. -/
theorem C5_create_empty_name_witness :
    create_character fs0 c5Form "abc" =
      .ok (fs0, Resp.redirectNew, [("O nome do personagem é obrigatório.", "error")]) :=
  C5_create_empty_name fs0 c5Form "abc" (by decide)

/-- C9 counterexample: the proficiencies field is stored verbatim, not
trimmed: submitting " stealth " stores " stealth ", while trimming would
store "stealth". -/
theorem C9_trim_counterexample :
    (extract_character_form c9Form none).proficiencies = " stealth " ∧
    pyStrip (c9Form.get "proficiencies" "") = "stealth" ∧
    (extract_character_form c9Form none).proficiencies ≠
      pyStrip (c9Form.get "proficiencies" "") := by
  exact ⟨rfl, by decide, by decide⟩

/-- C9 amended: extraction trims surrounding whitespace on name, race,
character_class, background, level, hit_points, armor_class and speed,
defaults level to "1" when the trimmed field is blank, carries
existing.image over unchanged, and stores the four multi-line fields
(proficiencies, equipment, spells, notes) verbatim, untrimmed. -/
theorem C9_extract_fields (form : Form) (existing : Option CharacterRec) :
    (extract_character_form form existing).name = pyStrip (form.get "name" "") ∧
    (extract_character_form form existing).race = pyStrip (form.get "race" "") ∧
    (extract_character_form form existing).character_class
      = pyStrip (form.get "character_class" "") ∧
    (extract_character_form form existing).background = pyStrip (form.get "background" "") ∧
    (extract_character_form form existing).hit_points = pyStrip (form.get "hit_points" "") ∧
    (extract_character_form form existing).armor_class = pyStrip (form.get "armor_class" "") ∧
    (extract_character_form form existing).speed = pyStrip (form.get "speed" "") ∧
    (pyStrip (form.get "level" "1") = "" → (extract_character_form form existing).level = "1") ∧
    (pyStrip (form.get "level" "1") ≠ "" →
      (extract_character_form form existing).level = pyStrip (form.get "level" "1")) ∧
    (extract_character_form form existing).proficiencies = form.get "proficiencies" "" ∧
    (extract_character_form form existing).equipment = form.get "equipment" "" ∧
    (extract_character_form form existing).spells = form.get "spells" "" ∧
    (extract_character_form form existing).notes = form.get "notes" "" ∧
    (existing = none → (extract_character_form form existing).image = none) ∧
    (∀ e, existing = some e → (extract_character_form form existing).image = e.image) := by
  refine ⟨rfl, rfl, rfl, rfl, rfl, rfl, rfl, ?_, ?_, rfl, rfl, rfl, rfl, ?_, ?_⟩
  · intro h
    simp [extract_character_form, strOr, h]
  · intro h
    simp [extract_character_form, strOr, h]
  · intro h
    subst h
    rfl
  · intro e h
    subst h
    rfl

/-- C9 witness: the amended field behavior evaluated on the sample form. -/
theorem C9_extract_fields_witness :
    (extract_character_form c9Form none).name = pyStrip (c9Form.get "name" "") ∧
    (extract_character_form c9Form none).race = pyStrip (c9Form.get "race" "") ∧
    (extract_character_form c9Form none).character_class
      = pyStrip (c9Form.get "character_class" "") ∧
    (extract_character_form c9Form none).background = pyStrip (c9Form.get "background" "") ∧
    (extract_character_form c9Form none).hit_points = pyStrip (c9Form.get "hit_points" "") ∧
    (extract_character_form c9Form none).armor_class = pyStrip (c9Form.get "armor_class" "") ∧
    (extract_character_form c9Form none).speed = pyStrip (c9Form.get "speed" "") ∧
    (pyStrip (c9Form.get "level" "1") = "" → (extract_character_form c9Form none).level = "1") ∧
    (pyStrip (c9Form.get "level" "1") ≠ "" →
      (extract_character_form c9Form none).level = pyStrip (c9Form.get "level" "1")) ∧
    (extract_character_form c9Form none).proficiencies = c9Form.get "proficiencies" "" ∧
    (extract_character_form c9Form none).equipment = c9Form.get "equipment" "" ∧
    (extract_character_form c9Form none).spells = c9Form.get "spells" "" ∧
    (extract_character_form c9Form none).notes = c9Form.get "notes" "" ∧
    ((none : Option CharacterRec) = none → (extract_character_form c9Form none).image = none) ∧
    (∀ e, (none : Option CharacterRec) = some e →
      (extract_character_form c9Form none).image = e.image) :=
  C9_extract_fields c9Form none

/-- C1: whenever a create request with a non-empty extracted name
completes (returns a response rather than raising), it redirects to the
view of the new id, and viewing that id loads exactly the record that was
extracted from the form, up to the image field; the id is the store key
under which the record was saved. -/
theorem C1_create_then_view (fs fs' : FS) (form : Form) (character_id : String)
    (resp : Resp) (fl : List Flash)
    (hname : (extract_character_form form none).name ≠ "")
    (hok : create_character fs form character_id = .ok (fs', resp, fl)) :
    resp = Resp.redirectView character_id ∧
    ∃ saved, view_character fs' character_id = some saved ∧
      eqModImage saved (extract_character_form form none) := by
  simp only [create_character] at hok
  rw [if_neg hname] at hok
  cases hhi : handle_image_upload fs character_id form.imageFile none with
  | error e =>
    rw [hhi] at hok
    exact absurd hok (by simp)
  | ok res =>
    obtain ⟨img, fs1, fl1⟩ := res
    rw [hhi] at hok
    simp only [Except.ok.injEq, Prod.mk.injEq] at hok
    obtain ⟨hfs, hresp, hfl⟩ := hok
    subst hfs
    refine ⟨hresp.symm, ⟨{ extract_character_form form none with image := img }, ?_, ?_⟩⟩
    · exact lookupRecord_writeRecord_self fs1 character_id _
    · exact ⟨rfl, rfl, rfl, rfl, rfl, rfl, rfl, rfl, rfl, rfl, rfl, rfl, rfl⟩

/-- C1 witness: the roundtrip evaluated on a concrete create. -/
theorem C1_create_then_view_witness :
    Resp.redirectView "abc" = Resp.redirectView "abc" ∧
    ∃ saved, view_character c1FS "abc" = some saved ∧
      eqModImage saved (extract_character_form c1Form none) :=
  C1_create_then_view fs0 c1FS c1Form "abc" (Resp.redirectView "abc")
    [("Personagem criado com sucesso!", "success")] (by decide) (by rfl)

/-- C2: deleting an existing character removes exactly its record file,
removes its referenced image file when the reference is truthy, redirects
to the list, and a subsequent view of the id yields 404; a delete or view
of an id with no backing file yields 404 and changes nothing. -/
theorem C2_delete_removes (fs : FS) (id missing : String) (rec : CharacterRec)
    (hrec : fs.lookupRecord id = some rec)
    (hmiss : fs.lookupRecord missing = none) :
    (delete_character fs id).2.1 = Resp.redirectIndex ∧
    (delete_character fs id).1.records = fs.records.filter (fun e => e.1 ≠ id) ∧
    view_character (delete_character fs id).1 id = none ∧
    (∀ img, rec.image = some img → img ≠ "" →
      (delete_character fs id).1.images = fs.images.filter (fun m => m ≠ pathName img) ∧
      pathName img ∉ (delete_character fs id).1.images) ∧
    (rec.image = none → (delete_character fs id).1.images = fs.images) ∧
    delete_character fs missing = (fs, Resp.notFound, []) ∧
    view_character fs missing = none := by
  have hrecords :
      (delete_character fs id).1.records = fs.records.filter (fun e => e.1 ≠ id) := by
    simp only [delete_character, hrec]
    cases rec.image with
    | none => rfl
    | some img =>
      split
      all_goals try rfl
      all_goals split <;> rfl
  refine ⟨?_, hrecords, ?_, ?_, ?_, ?_, hmiss⟩
  · simp only [delete_character, hrec]
  · show ((delete_character fs id).1).lookupRecord id = none
    rw [FS.lookupRecord, hrecords]
    exact assocLookup_filter_ne fs.records id
  · intro img him hne
    have himages :
        (delete_character fs id).1.images = fs.images.filter (fun m => m ≠ pathName img) := by
      simp only [delete_character, hrec, him]
      rw [if_pos hne]
      rfl
    refine ⟨himages, ?_⟩
    rw [himages]
    simp [List.mem_filter]
  · intro him
    simp only [delete_character, hrec, him]
    rfl
  · simp only [delete_character, hmiss]

/-- C2 witness: deleting the only character of a concrete store. -/
theorem C2_delete_removes_witness :
    (delete_character c2FS "id1").2.1 = Resp.redirectIndex ∧
    (delete_character c2FS "id1").1.records
      = c2FS.records.filter (fun e => e.1 ≠ "id1") ∧
    view_character (delete_character c2FS "id1").1 "id1" = none ∧
    (∀ img, c2Rec.image = some img → img ≠ "" →
      (delete_character c2FS "id1").1.images
        = c2FS.images.filter (fun m => m ≠ pathName img) ∧
      pathName img ∉ (delete_character c2FS "id1").1.images) ∧
    (c2Rec.image = none → (delete_character c2FS "id1").1.images = c2FS.images) ∧
    delete_character c2FS "nope" = (c2FS, Resp.notFound, []) ∧
    view_character c2FS "nope" = none :=
  C2_delete_removes c2FS "id1" "nope" c2Rec (by rfl) (by rfl)

instance : IsTotal (String × CharacterRec) recLe :=
  ⟨fun a b => le_total (nameKey a) (nameKey b)⟩

instance : IsTrans (String × CharacterRec) recLe :=
  ⟨fun _ _ _ hab hbc => le_trans hab hbc⟩

/-- C3: load_characters returns all stored records, each paired with its
filename stem, in ascending order of the lowercased name; it is empty when
the directory is empty; and on names "zara", "Anna", "bob" the output
order is Anna, bob, zara. -/
theorem C3_load_characters_sorted (fs : FS) :
    (load_characters fs).Perm fs.records ∧
    List.Sorted recLe (load_characters fs) ∧
    (fs.records = [] → load_characters fs = []) ∧
    (load_characters c3FS).map (fun e => e.2.name) = ["Anna", "bob", "zara"] := by
  refine ⟨List.perm_insertionSort recLe fs.records,
          List.sorted_insertionSort recLe fs.records, ?_, by decide⟩
  intro h
  simp [load_characters, h]

/-- C3 witness: the listing property evaluated on the concrete store. -/
theorem C3_load_characters_sorted_witness :
    (load_characters c3FS).Perm c3FS.records ∧
    List.Sorted recLe (load_characters c3FS) ∧
    (c3FS.records = [] → load_characters c3FS = []) ∧
    (load_characters c3FS).map (fun e => e.2.name) = ["Anna", "bob", "zara"] :=
  C3_load_characters_sorted c3FS

theorem uploadsNe (s : String) : "uploads/" ++ s ≠ "" := by
  intro h
  have hd := congrArg String.data h
  rw [String.data_append] at hd
  have h2 := List.append_eq_nil.mp hd
  exact absurd (String.ext h2.1) (by decide)

theorem uploadsInj {a b : String} (h : "uploads/" ++ a = "uploads/" ++ b) : a = b := by
  have hd := congrArg String.data h
  rw [String.data_append, String.data_append] at hd
  exact String.ext (List.append_cancel_left hd)

theorem hasStem_append (character_id e : String) :
    hasStem character_id (character_id ++ "." ++ e) = true := by
  unfold hasStem
  have hd : (character_id ++ "." ++ e).toList
      = (character_id ++ ".").toList ++ e.toList := String.data_append _ _
  rw [hd, List.isPrefixOf_iff_prefix]
  exact List.prefix_append _ _

theorem filter_stem_single (character_id final : String) (l : List String)
    (hstem : hasStem character_id final = true)
    (hnone : ∀ m ∈ l, hasStem character_id m = true → m = final) :
    (final :: l.filter (fun m => m ≠ final)).filter (fun m => hasStem character_id m)
      = [final] := by
  rw [List.filter_cons, if_pos (by simp [hstem])]
  have h0 : (l.filter (fun m => m ≠ final)).filter (fun m => hasStem character_id m) = [] := by
    rw [List.filter_eq_nil_iff]
    intro m hm hs
    rw [List.mem_filter] at hm
    exact absurd (hnone m hm.1 hs) (by simpa using hm.2)
  rw [h0]

theorem filter_stem_single2 (character_id final n : String) (l : List String)
    (hstem : hasStem character_id final = true)
    (hfn : final ≠ n)
    (hnone : ∀ m ∈ l, hasStem character_id m = true → m = n) :
    ((final :: l.filter (fun m => m ≠ final)).filter (fun m => m ≠ n)).filter
      (fun m => hasStem character_id m) = [final] := by
  rw [List.filter_cons, if_pos (by simp [hfn])]
  rw [List.filter_cons, if_pos (by simp [hstem])]
  have h0 : ((l.filter (fun m => m ≠ final)).filter (fun m => m ≠ n)).filter
      (fun m => hasStem character_id m) = [] := by
    rw [List.filter_eq_nil_iff]
    intro m hm hs
    rw [List.mem_filter] at hm
    have hm1 := hm.1
    rw [List.mem_filter] at hm1
    exact absurd (hnone m hm1.1 hs) (by simpa using hm.2)
  rw [h0]

/-- C6: an upload whose extension is not in the allow-list is rejected
with the warning flash, the image reference and the upload directory are
left untouched, and the record save still proceeds — on update (previous
image kept) and on create (image stays unset). -/
theorem C6_invalid_extension (fs : FS) (form : Form) (id newId fn : String)
    (existing : CharacterRec)
    (hfile : form.imageFile = some fn) (hfn : fn ≠ "") (hbad : allowed_file fn = false)
    (hex : fs.lookupRecord id = some existing)
    (hupd : (extract_character_form form (some existing)).name ≠ "")
    (hcre : (extract_character_form form none).name ≠ "") :
    update_character fs form id =
      .ok (fs.writeRecord id
             { extract_character_form form (some existing) with image := existing.image },
           Resp.redirectView id,
           [(invalidImageMsg, "error"), ("Personagem atualizado!", "success")]) ∧
    (fs.writeRecord id
       { extract_character_form form (some existing) with image := existing.image }).images
      = fs.images ∧
    create_character fs form newId =
      .ok (fs.writeRecord newId { extract_character_form form none with image := none },
           Resp.redirectView newId,
           [(invalidImageMsg, "error"), ("Personagem criado com sucesso!", "success")]) := by
  have hup : ∀ (cid : String) (prev : Option String),
      handle_image_upload fs cid form.imageFile prev
        = .ok (prev, fs, [(invalidImageMsg, "error")]) := by
    intro cid prev
    rw [hfile]
    simp only [handle_image_upload]
    rw [if_neg hfn, if_pos hbad]
  refine ⟨?_, rfl, ?_⟩
  · simp only [update_character, hex]
    rw [if_neg hupd, hup id existing.image]
    rfl
  · simp only [create_character]
    rw [if_neg hcre, hup newId none]
    rfl

/-- C6 witness: uploading "portrait.exe" on a concrete store. -/
theorem C6_invalid_extension_witness :
    update_character c2FS c6Form "id1" =
      .ok (c2FS.writeRecord "id1"
             { extract_character_form c6Form (some c2Rec) with image := c2Rec.image },
           Resp.redirectView "id1",
           [(invalidImageMsg, "error"), ("Personagem atualizado!", "success")]) ∧
    (c2FS.writeRecord "id1"
       { extract_character_form c6Form (some c2Rec) with image := c2Rec.image }).images
      = c2FS.images ∧
    create_character c2FS c6Form "newid" =
      .ok (c2FS.writeRecord "newid" { extract_character_form c6Form none with image := none },
           Resp.redirectView "newid",
           [(invalidImageMsg, "error"), ("Personagem criado com sucesso!", "success")]) :=
  C6_invalid_extension c2FS c6Form "id1" "newid" "portrait.exe" c2Rec (by rfl) (by decide)
    (by decide) (by rfl) (by decide) (by decide)

/-- C7: an update that submits no file (or an empty filename) persists the
record with the previous image reference unchanged and leaves the upload
directory exactly as it was. -/
theorem C7_update_no_upload (fs : FS) (form : Form) (id : String) (existing : CharacterRec)
    (hfile : form.imageFile = none ∨ form.imageFile = some "")
    (hex : fs.lookupRecord id = some existing)
    (hname : (extract_character_form form (some existing)).name ≠ "") :
    update_character fs form id =
      .ok (fs.writeRecord id
             { extract_character_form form (some existing) with image := existing.image },
           Resp.redirectView id, [("Personagem atualizado!", "success")]) ∧
    (fs.writeRecord id
       { extract_character_form form (some existing) with image := existing.image }).images
      = fs.images ∧
    ({ extract_character_form form (some existing) with
        image := existing.image } : CharacterRec).image = existing.image := by
  have hup : handle_image_upload fs id form.imageFile existing.image
      = .ok (existing.image, fs, []) := by
    rcases hfile with h | h
    · rw [h]
      rfl
    · rw [h]
      simp only [handle_image_upload]
      rw [if_pos trivial]
  refine ⟨?_, rfl, rfl⟩
  simp only [update_character, hex]
  rw [if_neg hname, hup]
  rfl

/-- C7 witness: an update with no upload on a concrete store. -/
theorem C7_update_no_upload_witness :
    update_character c2FS c7Form "id1" =
      .ok (c2FS.writeRecord "id1"
             { extract_character_form c7Form (some c2Rec) with image := c2Rec.image },
           Resp.redirectView "id1", [("Personagem atualizado!", "success")]) ∧
    (c2FS.writeRecord "id1"
       { extract_character_form c7Form (some c2Rec) with image := c2Rec.image }).images
      = c2FS.images ∧
    ({ extract_character_form c7Form (some c2Rec) with
        image := c2Rec.image } : CharacterRec).image = c2Rec.image :=
  C7_update_no_upload c2FS c7Form "id1" c2Rec (Or.inl rfl) (by rfl) (by decide)

/-- C8: an update uploading a valid image writes the file
<id>.<extension> (extension taken from the sanitized filename, lowered),
stores the record with image = "uploads/<id>.<extension>", deletes the
differing previous image file, and afterwards exactly one image file for
that id remains.  The last two hypotheses are the store invariants the
code itself maintains: image references point into uploads/ by bare
filename, and any image file stored for this id is the referenced one. -/
theorem C8_update_valid_image (fs : FS) (form : Form) (id fn rawExt : String)
    (existing : CharacterRec)
    (hfile : form.imageFile = some fn) (hfn : fn ≠ "")
    (hgood : allowed_file fn = true)
    (hext : rsplitLast (secure_filename fn) = some rawExt)
    (hex : fs.lookupRecord id = some existing)
    (hname : (extract_character_form form (some existing)).name ≠ "")
    (hprev : existing.image = none ∨
      ∃ n, existing.image = some ("uploads/" ++ n) ∧ pathName ("uploads/" ++ n) = n)
    (honly : ∀ m ∈ fs.images, hasStem id m = true → existing.image = some ("uploads/" ++ m)) :
    ∃ fs', update_character fs form id =
        .ok (fs', Resp.redirectView id, [("Personagem atualizado!", "success")]) ∧
      load_character fs' id = some { extract_character_form form (some existing) with
        image := some ("uploads/" ++ (id ++ "." ++ lowerStr rawExt)) } ∧
      (id ++ "." ++ lowerStr rawExt) ∈ fs'.images ∧
      (∀ n, existing.image = some ("uploads/" ++ n) → n ≠ id ++ "." ++ lowerStr rawExt →
        n ∉ fs'.images) ∧
      fs'.images.filter (fun m => hasStem id m) = [id ++ "." ++ lowerStr rawExt] := by
  have hbadneg : ¬ (allowed_file fn = false) := by simp [hgood]
  rcases hprev with himg | ⟨n, himg, hpn⟩
  · -- no previous image
    have hup : handle_image_upload fs id form.imageFile existing.image =
        .ok (some ("uploads/" ++ (id ++ "." ++ lowerStr rawExt)),
             fs.writeImage (id ++ "." ++ lowerStr rawExt), []) := by
      rw [hfile, himg]
      simp only [handle_image_upload, hext]
      rw [if_neg hfn, if_neg hbadneg]
    refine ⟨(fs.writeImage (id ++ "." ++ lowerStr rawExt)).writeRecord id
      { extract_character_form form (some existing) with
        image := some ("uploads/" ++ (id ++ "." ++ lowerStr rawExt)) }, ?_, ?_, ?_, ?_, ?_⟩
    · simp only [update_character, hex]
      rw [if_neg hname, hup]
      rfl
    · exact lookupRecord_writeRecord_self _ _ _
    · simp [FS.writeImage, FS.writeRecord]
    · intro n h hne
      rw [himg] at h
      cases h
    · show ((id ++ "." ++ lowerStr rawExt)
          :: fs.images.filter (fun m => m ≠ id ++ "." ++ lowerStr rawExt)).filter
          (fun m => hasStem id m) = [id ++ "." ++ lowerStr rawExt]
      refine filter_stem_single id _ fs.images (hasStem_append id _) ?_
      intro m hm hs
      exact absurd (honly m hm hs) (by rw [himg]; intro h; cases h)
  · by_cases hne : n = id ++ "." ++ lowerStr rawExt
    · -- previous reference already names the new file
      subst hne
      have hup : handle_image_upload fs id form.imageFile existing.image =
          .ok (some ("uploads/" ++ (id ++ "." ++ lowerStr rawExt)),
               fs.writeImage (id ++ "." ++ lowerStr rawExt), []) := by
        rw [hfile, himg]
        simp only [handle_image_upload, hext]
        rw [if_neg hfn, if_neg hbadneg, if_neg (fun h => h.2 rfl)]
      refine ⟨(fs.writeImage (id ++ "." ++ lowerStr rawExt)).writeRecord id
        { extract_character_form form (some existing) with
          image := some ("uploads/" ++ (id ++ "." ++ lowerStr rawExt)) }, ?_, ?_, ?_, ?_, ?_⟩
      · simp only [update_character, hex]
        rw [if_neg hname, hup]
        rfl
      · exact lookupRecord_writeRecord_self _ _ _
      · simp [FS.writeImage, FS.writeRecord]
      · intro n2 h hne2
        rw [himg] at h
        have h2 := Option.some.inj h
        exact absurd (uploadsInj h2).symm hne2
      · show ((id ++ "." ++ lowerStr rawExt)
            :: fs.images.filter (fun m => m ≠ id ++ "." ++ lowerStr rawExt)).filter
            (fun m => hasStem id m) = [id ++ "." ++ lowerStr rawExt]
        refine filter_stem_single id _ fs.images (hasStem_append id _) ?_
        intro m hm hs
        have h2 := honly m hm hs
        rw [himg] at h2
        exact (uploadsInj (Option.some.inj h2)).symm
    · -- differing previous image: it is deleted
      have hup : handle_image_upload fs id form.imageFile existing.image =
          .ok (some ("uploads/" ++ (id ++ "." ++ lowerStr rawExt)),
               (fs.writeImage (id ++ "." ++ lowerStr rawExt)).removeImage n, []) := by
        rw [hfile, himg]
        simp only [handle_image_upload, hext]
        have hcond : ("uploads/" ++ n) ≠ "" ∧
            ("uploads/" ++ n) ≠ "uploads/" ++ (id ++ "." ++ lowerStr rawExt) :=
          ⟨uploadsNe n, fun h => hne (uploadsInj h)⟩
        rw [if_neg hfn, if_neg hbadneg, if_pos hcond, hpn]
      refine ⟨((fs.writeImage (id ++ "." ++ lowerStr rawExt)).removeImage n).writeRecord id
        { extract_character_form form (some existing) with
          image := some ("uploads/" ++ (id ++ "." ++ lowerStr rawExt)) }, ?_, ?_, ?_, ?_, ?_⟩
      · simp only [update_character, hex]
        rw [if_neg hname, hup]
        rfl
      · exact lookupRecord_writeRecord_self _ _ _
      · have hfn2 : ¬ (id ++ "." ++ lowerStr rawExt) = n := fun h => hne h.symm
        simp only [FS.writeImage, FS.removeImage, FS.writeRecord]
        rw [List.filter_cons, if_pos (by simp [hfn2])]
        exact List.mem_cons_self _ _
      · intro n2 h hne2
        rw [himg] at h
        have h2 := (uploadsInj (Option.some.inj h)).symm
        subst h2
        simp [FS.writeImage, FS.removeImage, FS.writeRecord, List.mem_filter]
      · show (((id ++ "." ++ lowerStr rawExt)
            :: fs.images.filter (fun m => m ≠ id ++ "." ++ lowerStr rawExt)).filter
            (fun m => m ≠ n)).filter (fun m => hasStem id m)
            = [id ++ "." ++ lowerStr rawExt]
        refine filter_stem_single2 id _ n fs.images (hasStem_append id _)
          (fun h => hne h.symm) ?_
        intro m hm hs
        have h2 := honly m hm hs
        rw [himg] at h2
        exact (uploadsInj (Option.some.inj h2)).symm

/-- C8 witness: replacing "uploads/id1.gif" by an uploaded "new pic.PNG"
on a concrete store. -/
theorem C8_update_valid_image_witness :
    ∃ fs', update_character
        { records := [("id1", { mkChar "Hero" with image := some "uploads/id1.gif" })]
        , images := ["id1.gif"] } c8Form "id1" =
        .ok (fs', Resp.redirectView "id1", [("Personagem atualizado!", "success")]) ∧
      load_character fs' "id1" = some { extract_character_form c8Form
          (some { mkChar "Hero" with image := some "uploads/id1.gif" }) with
        image := some ("uploads/" ++ ("id1" ++ "." ++ lowerStr "PNG")) } ∧
      ("id1" ++ "." ++ lowerStr "PNG") ∈ fs'.images ∧
      (∀ n, ({ mkChar "Hero" with image := some "uploads/id1.gif" } : CharacterRec).image
          = some ("uploads/" ++ n) → n ≠ "id1" ++ "." ++ lowerStr "PNG" →
        n ∉ fs'.images) ∧
      fs'.images.filter (fun m => hasStem "id1" m) = ["id1" ++ "." ++ lowerStr "PNG"] :=
  C8_update_valid_image
    { records := [("id1", { mkChar "Hero" with image := some "uploads/id1.gif" })]
    , images := ["id1.gif"] }
    c8Form "id1" "new pic.PNG" "PNG" { mkChar "Hero" with image := some "uploads/id1.gif" }
    (by rfl) (by decide) (by decide) (by decide) (by rfl) (by decide)
    (Or.inr ⟨"id1.gif", rfl, by decide⟩)
    (by
      intro m hm hs
      simp only [FS.images, List.mem_singleton] at hm
      subst hm
      rfl)

/-- C10: the claimed safety property fails.  allowed_file accepts ".png"
(the part after its last dot is "png"), but secure_filename strips the
leading dot, leaving "png" with no dot at all, so the extraction
filename.rsplit(".", 1)[1] raises IndexError: a create with a valid name
uploading a file named ".png" crashes instead of completing. -/
theorem C10_dotfile_crash :
    allowed_file ".png" = true ∧
    secure_filename ".png" = "png" ∧
    containsDot (secure_filename ".png") = false ∧
    rsplitLast (secure_filename ".png") = none ∧
    handle_image_upload fs0 "abc" (some ".png") none = .error () ∧
    create_character fs0 c10Form "abc" = .error () := by
  exact ⟨by decide, by decide, by decide, by decide, rfl, rfl⟩

end FichaRPG
